import Mathlib

/-!
Verification of the client-side behavior layer `static/js/style.js` of the
serveurbabu repository.

The script runs once on `DOMContentLoaded` and wires up:
  * a video autoplay controller (an `IntersectionObserver` over the node list
    `document.querySelectorAll('.post video')` captured once at load, plus
    global pause handlers for `visibilitychange`, window `blur`, and clicks on
    feed images),
  * socket handlers for inbound `new_comment` / `new_message` events,
  * a chat send button / Enter-key handler emitting `send_message`,
  * comment-form submit handlers emitting `send_comment`,
  * a `MutationObserver` on the posts container binding comment forms of
    newly inserted post nodes.

Each section below is a shallow embedding of one of those pieces, translated
directly from the source; theorems about the embedding settle the frozen
claims.
-/

namespace StyleJS

/-! ## Video autoplay controller (style.js lines 100–150)

Videos are modelled by natural-number identifiers.  The parameter `videos`
is the node list `document.querySelectorAll('.post video')` captured once at
load (line 101).  Identifiers outside `videos` model video elements that do
not exist at load time (e.g. videos inserted dynamically later); at load no
such element exists, so the initial state reports every identifier outside
`videos` as paused. -/

/-- The mutable controller state: which video elements are currently playing
(`v.paused` negated), the `current` variable of line 102, and the set of
elements `intersectionObserver.observe` has been called on (line 124). -/
structure VState where
  playing : Nat → Bool
  current : Option Nat
  observed : List Nat

/-- One `IntersectionObserverEntry` as consumed by the callback of
line 104: its target video, `entry.isIntersecting`, and
`entry.intersectionRatio`. -/
structure Entry where
  target : Nat
  isIntersecting : Bool
  intersectionRatio : ℚ

/-- The guard of line 107: `entry.isIntersecting && entry.intersectionRatio >= 0.6`. -/
def isDominant (e : Entry) : Bool :=
  e.isIntersecting && decide ((6 / 10 : ℚ) ≤ e.intersectionRatio)

/-- Lines 109–110: pause `current` when it differs from the target, and pause
every other member of the captured `videos` list that is not already
paused. -/
def pauseOthersPhase (videos : List Nat) (s : VState) (t : Nat) : VState :=
  { s with playing := fun v =>
      if v ≠ t ∧ (s.current = some v ∨ v ∈ videos) then false else s.playing v }

/-- Lines 105–119: one entry of the observer callback.  In the dominant case
the pause phase of lines 109–110 runs first, then `current = vid` and
`vid.play()` (lines 113–114; a rejected play promise is swallowed by the
`catch` of line 115, so commanding play is modelled as entering the playing
state).  Otherwise line 117 pauses the target. -/
def processEntry (videos : List Nat) (s : VState) (e : Entry) : VState :=
  if isDominant e then
    let s1 := pauseOthersPhase videos s e.target
    { s1 with current := some e.target,
              playing := fun v => if v = e.target then true else s1.playing v }
  else
    { s with playing := fun v => if v = e.target then false else s.playing v }

/-- The `entries.forEach` loop of line 105. -/
def processEntries (videos : List Nat) (s : VState) (es : List Entry) : VState :=
  es.foldl (processEntry videos) s

/-- The common body of the three global pause handlers (lines 130–131,
135–136, 142–143): `videos.forEach(v => v.pause()); current = null;`. -/
def pauseAll (videos : List Nat) (s : VState) : VState :=
  { s with playing := fun v => if v ∈ videos then false else s.playing v,
           current := none }

/-- The `visibilitychange` handler of lines 128–133: pauses everything only
when `document.hidden` is true. -/
def onVisibilityChange (videos : List Nat) (hidden : Bool) (s : VState) : VState :=
  if hidden then pauseAll videos s else s

/-- The window `blur` handler of lines 134–137. -/
def onBlur (videos : List Nat) (s : VState) : VState :=
  pauseAll videos s

/-- The click handler bound to every `.post img` element at load
(lines 140–145). -/
def onImgClick (videos : List Nat) (s : VState) : VState :=
  pauseAll videos s

/-- The registration hook `observeVideo` of lines 148–150.  Its body is only
the placeholder comment `placeholder si besoin ...`: it performs no action,
so it leaves the controller state — including the observed set — unchanged. -/
def observeVideo (s : VState) (_v : Nat) : VState :=
  s

/-- The state right after the setup loop of lines 122–125: every captured
video has been paused and registered with the observer; no other video
element exists yet, hence nothing else is playing. -/
def initState (videos : List Nat) : VState :=
  { playing := fun _ => false, current := none, observed := videos }

/-- One asynchronous callback handled by the script: an observer callback
batch (whose entries can only target elements that were registered with the
observer), a `visibilitychange`, a window `blur`, a feed-image click, or an
invocation of the `observeVideo` hook (as done by the mutation observer,
lines 14–15). -/
inductive Step (videos : List Nat) : VState → VState → Prop where
  | observer (s : VState) (es : List Entry)
      (hobs : ∀ e ∈ es, e.target ∈ s.observed) :
      Step videos s (processEntries videos s es)
  | visibility (s : VState) (hidden : Bool) :
      Step videos s (onVisibilityChange videos hidden s)
  | blurSignal (s : VState) :
      Step videos s (onBlur videos s)
  | imgClickSignal (s : VState) :
      Step videos s (onImgClick videos s)
  | observeCall (s : VState) (v : Nat) :
      Step videos s (observeVideo s v)

/-- The states the controller can be in after any finite sequence of handled
callbacks, starting from the post-setup state. -/
inductive Reachable (videos : List Nat) : VState → Prop where
  | init : Reachable videos (initState videos)
  | step {s s' : VState} : Reachable videos s → Step videos s s' →
      Reachable videos s'

/-- At most one video element is in the playing state. -/
def AtMostOnePlaying (s : VState) : Prop :=
  ∀ v w, s.playing v = true → s.playing w = true → v = w

/-- The inductive invariant: the observed set is exactly the captured list,
nothing outside the captured list plays, and at most one video plays. -/
def GoodState (videos : List Nat) (s : VState) : Prop :=
  s.observed = videos ∧ (∀ v, v ∉ videos → s.playing v = false) ∧
    AtMostOnePlaying s

theorem goodState_init (videos : List Nat) : GoodState videos (initState videos) := by
  refine ⟨rfl, fun v _ => rfl, fun v w hv _ => ?_⟩
  simp [initState] at hv

theorem processEntry_good {videos : List Nat} {s : VState} {e : Entry}
    (hs : GoodState videos s) (ht : e.target ∈ videos) :
    GoodState videos (processEntry videos s e) := by
  obtain ⟨hobs, hout, hone⟩ := hs
  by_cases hd : isDominant e = true
  · refine ⟨by simp [processEntry, hd, pauseOthersPhase, hobs], ?_, ?_⟩
    · intro v hv
      simp only [processEntry, hd, if_pos, pauseOthersPhase]
      by_cases hvt : v = e.target
      · exact absurd (hvt ▸ ht) hv
      · simp only [if_neg hvt]
        by_cases hp : v ≠ e.target ∧ (s.current = some v ∨ v ∈ videos)
        · simp [hp]
        · simp only [if_neg hp]
          exact hout v hv
    · intro v w hv hw
      have key : ∀ u, (processEntry videos s e).playing u = true → u = e.target := by
        intro u hu
        by_contra hne
        simp only [processEntry, hd, if_pos, pauseOthersPhase, if_neg hne] at hu
        by_cases hp : u ≠ e.target ∧ (s.current = some u ∨ u ∈ videos)
        · simp [hp] at hu
        · simp only [if_neg hp] at hu
          push_neg at hp
          have hu2 := hp hne
          have : u ∉ videos := fun hmem => by simp [hmem] at hu2
          rw [hout u this] at hu
          exact Bool.false_ne_true hu
      rw [key v hv, key w hw]
  · replace hd : isDominant e = false := by
      cases h : isDominant e
      · rfl
      · exact absurd h hd
    refine ⟨by simp [processEntry, hd, hobs], ?_, ?_⟩
    · intro v hv
      simp only [processEntry, hd, Bool.false_eq_true, if_neg, if_false]
      by_cases hvt : v = e.target
      · simp [hvt]
      · simp only [if_neg hvt]
        exact hout v hv
    · intro v w hv hw
      have key : ∀ u, (processEntry videos s e).playing u = true →
          s.playing u = true := by
        intro u hu
        simp only [processEntry, hd, Bool.false_eq_true, if_false] at hu
        by_cases hvt : u = e.target
        · simp [hvt] at hu
        · simpa [hvt] using hu
      exact hone v w (key v hv) (key w hw)

theorem processEntries_good {videos : List Nat} {s : VState} {es : List Entry}
    (hs : GoodState videos s) (hts : ∀ e ∈ es, e.target ∈ videos) :
    GoodState videos (processEntries videos s es) := by
  induction es generalizing s with
  | nil => exact hs
  | cons e es ih =>
    have h1 : GoodState videos (processEntry videos s e) :=
      processEntry_good hs (hts e (List.mem_cons_self e es))
    exact ih h1 fun e' he' => hts e' (List.mem_cons_of_mem e he')

theorem pauseAll_good {videos : List Nat} {s : VState}
    (hs : GoodState videos s) : GoodState videos (pauseAll videos s) := by
  obtain ⟨hobs, hout, _⟩ := hs
  refine ⟨by simp [pauseAll, hobs], ?_, ?_⟩
  · intro v hv
    simp only [pauseAll]
    by_cases hm : v ∈ videos
    · simp [hm]
    · simp only [if_neg hm]
      exact hout v hv
  · intro v w hv hw
    by_cases hm : v ∈ videos
    · simp [pauseAll, hm] at hv
    · simp only [pauseAll, if_neg hm] at hv
      rw [hout v hm] at hv
      exact absurd hv Bool.false_ne_true

theorem reachable_good {videos : List Nat} {s : VState}
    (h : Reachable videos s) : GoodState videos s := by
  induction h with
  | init => exact goodState_init videos
  | @step t t' _ hstep ih =>
    cases hstep with
    | observer es hobs =>
      exact processEntries_good ih fun e he => ih.1 ▸ hobs e he
    | visibility hidden =>
      by_cases hh : hidden = true
      · simpa [onVisibilityChange, hh] using pauseAll_good ih
      · replace hh : hidden = false := by
          cases hidden
          · rfl
          · exact absurd rfl hh
        simpa [onVisibilityChange, hh] using ih
    | blurSignal => exact pauseAll_good ih
    | imgClickSignal => exact pauseAll_good ih
    | observeCall v => exact ih

theorem processEntry_dominant_spec (videos : List Nat) (s : VState) (e : Entry)
    (hd : isDominant e = true) :
    (∀ v, (processEntry videos s e).playing v =
        if v = e.target then true
        else if s.current = some v ∨ v ∈ videos then false
        else s.playing v) ∧
      (processEntry videos s e).current = some e.target := by
  have hpe : processEntry videos s e =
      { pauseOthersPhase videos s e.target with
        current := some e.target,
        playing := fun v => if v = e.target then true
          else (pauseOthersPhase videos s e.target).playing v } := by
    simp [processEntry, hd]
  rw [hpe]
  refine ⟨fun v => ?_, rfl⟩
  by_cases hvt : v = e.target
  · simp [hvt]
  · show (if v = e.target then true
        else if v ≠ e.target ∧ (s.current = some v ∨ v ∈ videos) then false
        else s.playing v) = _
    rw [if_neg hvt, if_neg hvt]
    by_cases hc : s.current = some v ∨ v ∈ videos
    · rw [if_pos ⟨hvt, hc⟩, if_pos hc]
    · rw [if_neg (fun h => hc h.2), if_neg hc]

/-- C1.  At most one video element under the feed is in the playing state in
every state the controller can reach, and whenever the callback's pause phase
(lines 109–110) has run for a dominant target, every video other than that
target is paused — so the pauses precede the `play()` command of line 114. -/
theorem atMostOnePlaying_invariant (videos : List Nat) (s : VState)
    (hre : Reachable videos s) :
    AtMostOnePlaying s ∧
      ∀ t v, v ≠ t → (pauseOthersPhase videos s t).playing v = false := by
  obtain ⟨_, hout, hone⟩ := reachable_good hre
  refine ⟨hone, fun t v hvt => ?_⟩
  show (if v ≠ t ∧ (s.current = some v ∨ v ∈ videos) then false
      else s.playing v) = false
  by_cases hc : s.current = some v ∨ v ∈ videos
  · rw [if_pos ⟨hvt, hc⟩]
  · rw [if_neg (fun h => hc h.2)]
    exact hout v fun hmem => hc (Or.inr hmem)

theorem atMostOnePlaying_invariant_witness :
    AtMostOnePlaying
        (processEntries [0, 1] (initState [0, 1]) [⟨0, true, 1⟩]) ∧
      ∀ t v, v ≠ t →
        (pauseOthersPhase [0, 1]
            (processEntries [0, 1] (initState [0, 1]) [⟨0, true, 1⟩])
            t).playing v = false :=
  atMostOnePlaying_invariant [0, 1] _
    (Reachable.step Reachable.init
      (Step.observer _ [⟨0, true, 1⟩] (by intro e he; simp at he; simp [he, initState])))

/-- C6.  When two videos A and B both report a dominant intersection in the
same callback batch, processed A then B, the post-batch state plays only B
and `current` designates B. -/
theorem batch_last_dominant_wins (videos : List Nat) (s : VState)
    (A B : Nat) (rA rB : ℚ) (hre : Reachable videos s) (_hAB : A ≠ B)
    (hA : (6 / 10 : ℚ) ≤ rA) (hB : (6 / 10 : ℚ) ≤ rB) :
    (∀ v,
        (processEntries videos s [⟨A, true, rA⟩, ⟨B, true, rB⟩]).playing v = true ↔
          v = B) ∧
      (processEntries videos s [⟨A, true, rA⟩, ⟨B, true, rB⟩]).current = some B := by
  have hout := (reachable_good hre).2.1
  have hdA : isDominant ⟨A, true, rA⟩ = true := by simp [isDominant, hA]
  have hdB : isDominant ⟨B, true, rB⟩ = true := by simp [isDominant, hB]
  have hstep : processEntries videos s [⟨A, true, rA⟩, ⟨B, true, rB⟩] =
      processEntry videos (processEntry videos s ⟨A, true, rA⟩) ⟨B, true, rB⟩ := rfl
  set s1 := processEntry videos s ⟨A, true, rA⟩ with hs1
  obtain ⟨hp1, hc1⟩ := processEntry_dominant_spec videos s ⟨A, true, rA⟩ hdA
  obtain ⟨hp2, hc2⟩ := processEntry_dominant_spec videos s1 ⟨B, true, rB⟩ hdB
  rw [hstep]
  refine ⟨fun v => ?_, hc2⟩
  rw [hp2 v]
  by_cases hvB : v = B
  · simp [hvB]
  · rw [if_neg hvB]
    by_cases hc : s1.current = some v ∨ v ∈ videos
    · simp [hc, hvB]
    · push_neg at hc
      obtain ⟨hcur, hmem⟩ := hc
      have hvA : v ≠ A := fun hva => hcur (by rw [hc1, hva])
      have hs1v : s1.playing v = false := by
        rw [hp1 v, if_neg hvA]
        by_cases hsc : s.current = some v ∨ v ∈ videos
        · simp [hsc]
        · simp [hsc, hout v hmem]
      simp [hcur, hmem, hs1v, hvB]


theorem batch_last_dominant_wins_witness :
    (∀ v, (processEntries [0, 1] (initState [0, 1])
        [⟨0, true, 1⟩, ⟨1, true, 1⟩]).playing v = true ↔ v = 1) ∧
      (processEntries [0, 1] (initState [0, 1])
        [⟨0, true, 1⟩, ⟨1, true, 1⟩]).current = some 1 :=
  batch_last_dominant_wins [0, 1] (initState [0, 1]) 0 1 1 1 Reachable.init
    (by decide) (by norm_num) (by norm_num)

/-- C7.  Each of the three global pause signals — the page becoming hidden
(`visibilitychange` with `document.hidden` true), window blur, and a click on
a feed image — pauses every captured feed video and clears the
currently-playing reference. -/
theorem globalPause_pauses_all (videos : List Nat) (s : VState) (v : Nat)
    (hv : v ∈ videos) :
    ((onVisibilityChange videos true s).playing v = false ∧
        (onVisibilityChange videos true s).current = none) ∧
      ((onBlur videos s).playing v = false ∧
        (onBlur videos s).current = none) ∧
      ((onImgClick videos s).playing v = false ∧
        (onImgClick videos s).current = none) := by
  have hp : (pauseAll videos s).playing v = false := by
    show (if v ∈ videos then false else s.playing v) = false
    rw [if_pos hv]
  refine ⟨⟨?_, ?_⟩, ⟨hp, rfl⟩, hp, rfl⟩
  · simpa [onVisibilityChange] using hp
  · simp [onVisibilityChange, pauseAll]

theorem globalPause_pauses_all_witness :
    ((onVisibilityChange [5] true
          (processEntries [5] (initState [5]) [⟨5, true, 1⟩])).playing 5 = false ∧
        (onVisibilityChange [5] true
          (processEntries [5] (initState [5]) [⟨5, true, 1⟩])).current = none) ∧
      ((onBlur [5] (processEntries [5] (initState [5]) [⟨5, true, 1⟩])).playing 5 =
          false ∧
        (onBlur [5] (processEntries [5] (initState [5]) [⟨5, true, 1⟩])).current =
          none) ∧
      ((onImgClick [5]
            (processEntries [5] (initState [5]) [⟨5, true, 1⟩])).playing 5 = false ∧
        (onImgClick [5]
            (processEntries [5] (initState [5]) [⟨5, true, 1⟩])).current = none) :=
  globalPause_pauses_all [5] (processEntries [5] (initState [5]) [⟨5, true, 1⟩]) 5
    (by decide)

/-- C10.  Dynamically inserted videos never participate in playback control:
the `observeVideo` registration hook is a no-op, the observed set stays the
node list captured once at load, and a video outside that list is never
observed, never playing in any reachable state, and untouched by each global
pause signal. -/
theorem dynamicVideo_never_controlled (videos : List Nat) (s : VState)
    (w : Nat) (hre : Reachable videos s) (hw : w ∉ videos) :
    observeVideo s w = s ∧
      s.observed = videos ∧ w ∉ s.observed ∧
      s.playing w = false ∧
      (onVisibilityChange videos true s).playing w = s.playing w ∧
      (onBlur videos s).playing w = s.playing w ∧
      (onImgClick videos s).playing w = s.playing w := by
  obtain ⟨hobs, hout, _⟩ := reachable_good hre
  have hpa : (pauseAll videos s).playing w = s.playing w := by
    show (if w ∈ videos then false else s.playing w) = s.playing w
    rw [if_neg hw]
  refine ⟨rfl, hobs, hobs ▸ hw, hout w hw, ?_, hpa, hpa⟩
  simpa [onVisibilityChange] using hpa

theorem dynamicVideo_never_controlled_witness :
    observeVideo (initState [0]) 1 = initState [0] ∧
      (initState [0]).observed = [0] ∧ 1 ∉ (initState [0]).observed ∧
      (initState [0]).playing 1 = false ∧
      (onVisibilityChange [0] true (initState [0])).playing 1 =
        (initState [0]).playing 1 ∧
      (onBlur [0] (initState [0])).playing 1 = (initState [0]).playing 1 ∧
      (onImgClick [0] (initState [0])).playing 1 = (initState [0]).playing 1 :=
  dynamicVideo_never_controlled [0] (initState [0]) 1 Reachable.init (by decide)

/-! ## Realtime event bridge and chat input (style.js lines 24–98) -/

/-- JavaScript `String.prototype.trim` as used at lines 62 and 90: drop
whitespace from both ends of the string. -/
def jsTrim (s : String) : String :=
  ⟨((s.data.dropWhile Char.isWhitespace).reverse.dropWhile
      Char.isWhitespace).reverse⟩

/-- Splitting a `className` string at spaces into its CSS class tokens
(helper for stating which classes a rendered div carries). -/
def classTokens : List Char → List Char → List String
  | [], acc => [⟨acc.reverse⟩]
  | c :: cs, acc =>
      if c = ' ' then ⟨acc.reverse⟩ :: classTokens cs []
      else classTokens cs (c :: acc)

/-- A rendered chat message `div`: its `className` and `textContent`
(lines 47–49 and 67–69). -/
structure MsgDiv where
  className : String
  textContent : String
deriving DecidableEq

/-- The `#messages` chat container: its child divs, and whether `scrollTop`
has been set to `scrollHeight` (lines 50–51 and 70–71). -/
structure MessagesBox where
  children : List MsgDiv
  scrolledToBottom : Bool
deriving DecidableEq

/-- Payload of an inbound `new_message` event (line 44). -/
structure MessagePayload where
  sender : String
  recipient : String
  content : String

/-- The message div built by lines 47–49. -/
def mkMessageDiv (currentUsername : String) (data : MessagePayload) : MsgDiv :=
  { className :=
      if data.sender = currentUsername then "message from-me"
      else "message from-other",
    textContent := data.content }

/-- Whether a rendered div's `className` carries a given CSS class token. -/
def hasCssClass (cls : String) (d : MsgDiv) : Bool :=
  (classTokens d.className.data []).contains cls

/-- Appending a child div and scrolling the container to the bottom
(lines 50–51, likewise 70–71). -/
def appendAndScroll (box : MessagesBox) (d : MsgDiv) : MessagesBox :=
  { children := box.children ++ [d], scrolledToBottom := true }

/-- The `new_message` handler of lines 44–53.  `chatContainer` is
`document.getElementById('messages')`, `none` when that element is absent;
the guard of line 46 requires the container and a sender or recipient equal
to `currentUsername`. -/
def onNewMessage (currentUsername : String) (chatContainer : Option MessagesBox)
    (data : MessagePayload) : Option MessagesBox :=
  match chatContainer with
  | none => none
  | some box =>
      if data.recipient = currentUsername ∨ data.sender = currentUsername then
        some (appendAndScroll box (mkMessageDiv currentUsername data))
      else some box

theorem appendAndScroll_ne (box : MessagesBox) (d : MsgDiv) :
    appendAndScroll box d ≠ box := by
  intro h
  have := congrArg (fun b => b.children.length) h
  simp [appendAndScroll] at this

/-- C2.  With the chat container present, an inbound `new_message` is
appended to it exactly when the local username equals the payload's sender or
recipient (otherwise the container is left unchanged); the rendered div
carries class `from-me` exactly when the sender is the local username and
`from-other` otherwise; with the container absent nothing is rendered. -/
theorem newMessage_rendered_iff (u : String) (box : MessagesBox)
    (d : MessagePayload) :
    (onNewMessage u (some box) d =
        some (appendAndScroll box (mkMessageDiv u d)) ↔
      (d.sender = u ∨ d.recipient = u)) ∧
      (onNewMessage u (some box) d = some box ↔
        ¬(d.sender = u ∨ d.recipient = u)) ∧
      (hasCssClass "from-me" (mkMessageDiv u d) = true ↔ d.sender = u) ∧
      (hasCssClass "from-other" (mkMessageDiv u d) = true ↔ ¬d.sender = u) ∧
      onNewMessage u none d = none := by
  have hred : onNewMessage u (some box) d =
      if d.recipient = u ∨ d.sender = u then
        some (appendAndScroll box (mkMessageDiv u d))
      else some box := rfl
  have hne := appendAndScroll_ne box (mkMessageDiv u d)
  have hme : hasCssClass "from-me" (mkMessageDiv u d) = true ↔ d.sender = u := by
    by_cases hs : d.sender = u
    · have : hasCssClass "from-me" (mkMessageDiv u d) = true := by
        simp only [mkMessageDiv, if_pos hs]
        rfl
      simp [this, hs]
    · have : hasCssClass "from-me" (mkMessageDiv u d) = false := by
        simp only [mkMessageDiv, if_neg hs]
        rfl
      simp [this, hs]
  have hother : hasCssClass "from-other" (mkMessageDiv u d) = true ↔
      ¬d.sender = u := by
    by_cases hs : d.sender = u
    · have : hasCssClass "from-other" (mkMessageDiv u d) = false := by
        simp only [mkMessageDiv, if_pos hs]
        rfl
      simp [this, hs]
    · have : hasCssClass "from-other" (mkMessageDiv u d) = true := by
        simp only [mkMessageDiv, if_neg hs]
        rfl
      simp [this, hs]
  by_cases hc : d.recipient = u ∨ d.sender = u
  · rw [hred, if_pos hc]
    exact ⟨⟨fun _ => hc.symm, fun _ => rfl⟩,
      ⟨fun h => absurd (Option.some.inj h) hne, fun hm => (hm hc.symm).elim⟩,
      hme, hother, rfl⟩
  · rw [hred, if_neg hc]
    have hm : ¬(d.sender = u ∨ d.recipient = u) := fun h => hc h.symm
    exact ⟨⟨fun h => absurd (Option.some.inj h).symm hne, fun h => (hm h).elim⟩,
      ⟨fun _ => hm, fun _ => rfl⟩, hme, hother, rfl⟩

/-- One outbound socket emission (lines 65 and 93).  A `send_comment` whose
`post_id` is `none` models the NaN produced by `parseInt` on a non-numeric
`data-post-id`. -/
inductive Emission where
  | sendMessage (recipient content : String)
  | sendComment (post_id : Option Int) (content : String)
deriving DecidableEq

/-- The recipient string baked into line 65.  The file is served as a static
asset, so this page-render-time template placeholder is the fixed recipient
value the handler always emits. -/
def chatRecipient : String := "\x7b\x7b chat_user \x7d\x7d"

/-- The chat page elements looked up once at lines 56–58: the value of
`#messageInput` (when the element is present), whether `#sendBtn` is present,
and the `#messages` container (when present). -/
structure ChatPage where
  input : Option String
  btnPresent : Bool
  messagesDiv : Option MessagesBox
deriving DecidableEq

/-- Outcome of a user action on the chat page: the emissions it produced, the
page afterwards, and whether the handler threw an uncaught exception (a
property access on a missing element). -/
structure HandlerResult where
  emitted : List Emission
  page : ChatPage
  threw : Bool
deriving DecidableEq

/-- The send-button click handler of lines 61–73.  `input.value` with
`#messageInput` absent throws (line 62); a blank-trimming text returns at
line 63; otherwise line 65 emits, and `messagesDiv.appendChild` with
`#messages` absent throws (line 70) after the emission has already left;
with everything present the message is appended, the container scrolled
(line 71), and the input cleared (line 72). -/
def sendBtnClickHandler (p : ChatPage) : HandlerResult :=
  match p.input with
  | none => ⟨[], p, true⟩
  | some v =>
      let text := jsTrim v
      if text = "" then ⟨[], p, false⟩
      else
        match p.messagesDiv with
        | none => ⟨[Emission.sendMessage chatRecipient text], p, true⟩
        | some box =>
            ⟨[Emission.sendMessage chatRecipient text],
              { p with input := some "",
                       messagesDiv :=
                         some (appendAndScroll box ⟨"message from-me", text⟩) },
              false⟩

/-- A click on the send control: the handler above is bound only when
`#sendBtn` was present at load (line 60); otherwise nothing is bound and the
click does nothing. -/
def clickSend (p : ChatPage) : HandlerResult :=
  if p.btnPresent then sendBtnClickHandler p else ⟨[], p, false⟩

/-- Pressing Enter in the chat input: the keypress handler is bound only when
`#messageInput` is present (line 76); it calls `btn.click()` (line 80), which
throws when `#sendBtn` is absent (`btn` is null) and otherwise synthesizes
the click. -/
def pressEnter (p : ChatPage) : HandlerResult :=
  match p.input with
  | none => ⟨[], p, false⟩
  | some _ => if p.btnPresent then sendBtnClickHandler p else ⟨[], p, true⟩

/-- A comment form as consumed by `bindCommentForm` (lines 86–97): the value
of its `input[name="comment"]` and its `data-post-id` attribute. -/
structure CommentForm where
  inputValue : String
  postIdAttr : String

/-- JavaScript `parseInt` in base 10: skip leading whitespace, read an
optional sign and then a maximal run of decimal digits; `none` models the NaN
result when no digit is found. -/
def jsParseInt (s : String) : Option Int :=
  let core : List Char → Option Nat := fun l =>
    match l.takeWhile (fun c => c.isDigit) with
    | [] => none
    | ds => some (ds.foldl (fun a c => a * 10 + (c.toNat - 48)) 0)
  match s.data.dropWhile (fun c => c.isWhitespace) with
  | '-' :: rest => (core rest).map (fun n => -(n : Int))
  | '+' :: rest => (core rest).map (fun n => (n : Int))
  | cs => (core cs).map (fun n => (n : Int))

/-- The submit handler attached by `bindCommentForm` (lines 87–96): prevent
default, trim the comment input; when non-empty, emit `send_comment` with
`parseInt` of the form's `data-post-id` and the trimmed content, then clear
the input; when blank, do nothing. -/
def commentSubmitHandler (f : CommentForm) : List Emission × CommentForm :=
  let content := jsTrim f.inputValue
  if content = "" then ([], f)
  else ([Emission.sendComment (jsParseInt f.postIdAttr) content],
        { f with inputValue := "" })

/-- C4.  A send-button click (or the Enter keypress that synthesizes it)
whose chat input trims to the empty string emits no `send_message`, and a
comment-form submit whose input trims to the empty string emits no
`send_comment`. -/
theorem empty_input_emits_nothing (p : ChatPage) (v : String) (f : CommentForm)
    (hv : p.input = some v) (hveq : jsTrim v = "") (hf : jsTrim f.inputValue = "") :
    (clickSend p).emitted = [] ∧ (pressEnter p).emitted = [] ∧
      (commentSubmitHandler f).1 = [] := by
  have hh : sendBtnClickHandler p = ⟨[], p, false⟩ := by
    simp [sendBtnClickHandler, hv, hveq]
  refine ⟨?_, ?_, ?_⟩
  · by_cases hb : p.btnPresent <;> simp [clickSend, hb, hh]
  · by_cases hb : p.btnPresent <;> simp [pressEnter, hv, hb, hh]
  · simp [commentSubmitHandler, hf]

theorem empty_input_emits_nothing_witness :
    (clickSend ⟨some "   ", true, some ⟨[], false⟩⟩).emitted = [] ∧
      (pressEnter ⟨some "   ", true, some ⟨[], false⟩⟩).emitted = [] ∧
      (commentSubmitHandler ⟨"  ", "3"⟩).1 = [] :=
  empty_input_emits_nothing ⟨some "   ", true, some ⟨[], false⟩⟩ "   "
    ⟨"  ", "3"⟩ rfl rfl rfl

/-- C5.  Clicking send with the chat input holding `"  hello  "` emits one
`send_message` carrying the fixed page-render-time recipient and the trimmed
content `"hello"`, appends a `message from-me` div with that content to the
chat container, scrolls it to the bottom, clears the input, and throws
nothing. -/
theorem chat_send_hello (box : MessagesBox) :
    clickSend ⟨some "  hello  ", true, some box⟩ =
      ⟨[Emission.sendMessage chatRecipient "hello"],
        ⟨some "", true, some ⟨box.children ++ [⟨"message from-me", "hello"⟩], true⟩⟩,
        false⟩ :=
  rfl

/-- C8 counterexample: with the chat input present but the send button
absent, the keypress handler is bound (line 76) and pressing Enter reaches
`btn.click()` (line 80) with `btn` null — the handler throws even though the
missing companion element was supposed to degrade silently. -/
theorem missing_button_enter_throws :
    (pressEnter ⟨some "hi", false, some ⟨[], false⟩⟩).threw = true :=
  rfl

/-- C8 amended.  A feature whose binding element is absent does not activate
and the action is a silent no-op: with `#sendBtn` absent no click handler is
bound, and with `#messageInput` absent no Enter handler is bound.  But a
handler that did get bound throws on a missing companion element: Enter in
the chat input throws when the send button is absent; clicking the send
control throws when the chat input is absent; and when the messages container
is absent and the text is non-blank, the click handler emits the
`send_message` first and then throws. -/
theorem missing_elements_degrade (p : ChatPage) :
    (p.input = none → pressEnter p = ⟨[], p, false⟩) ∧
      (p.btnPresent = false → clickSend p = ⟨[], p, false⟩) ∧
      (∀ v, p.input = some v → p.btnPresent = false →
        pressEnter p = ⟨[], p, true⟩) ∧
      (p.btnPresent = true → p.input = none → (clickSend p).threw = true) ∧
      (∀ v, p.btnPresent = true → p.input = some v → jsTrim v ≠ "" →
        p.messagesDiv = none →
        (clickSend p).threw = true ∧
          (clickSend p).emitted =
            [Emission.sendMessage chatRecipient (jsTrim v)]) := by
  refine ⟨fun h => ?_, fun h => ?_, fun v hv hb => ?_, fun hb h => ?_,
    fun v hb hv ht hm => ?_⟩
  · simp [pressEnter, h]
  · simp [clickSend, h]
  · simp [pressEnter, hv, hb]
  · simp [clickSend, hb, sendBtnClickHandler, h]
  · have hh : sendBtnClickHandler p =
        ⟨[Emission.sendMessage chatRecipient (jsTrim v)], p, true⟩ := by
      simp [sendBtnClickHandler, hv, ht, hm]
    simp [clickSend, hb, hh]

theorem missing_elements_degrade_witness :
    pressEnter ⟨none, true, none⟩ = ⟨[], ⟨none, true, none⟩, false⟩ ∧
      clickSend ⟨some "hi", false, none⟩ = ⟨[], ⟨some "hi", false, none⟩, false⟩ ∧
      pressEnter ⟨some "hi", false, none⟩ = ⟨[], ⟨some "hi", false, none⟩, true⟩ ∧
      (clickSend ⟨none, true, none⟩).threw = true ∧
      ((clickSend ⟨some " hi ", true, none⟩).threw = true ∧
        (clickSend ⟨some " hi ", true, none⟩).emitted =
          [Emission.sendMessage chatRecipient (jsTrim " hi ")]) :=
  ⟨(missing_elements_degrade ⟨none, true, none⟩).1 rfl,
   (missing_elements_degrade ⟨some "hi", false, none⟩).2.1 rfl,
   (missing_elements_degrade ⟨some "hi", false, none⟩).2.2.1 "hi" rfl rfl,
   (missing_elements_degrade ⟨none, true, none⟩).2.2.2.1 rfl rfl,
   (missing_elements_degrade ⟨some " hi ", true, none⟩).2.2.2.2 " hi " rfl rfl
     (by decide) rfl⟩

/-! ## Realtime comments: the `new_comment` handler (style.js lines 27–41) -/

/-- Payload of an inbound `new_comment` event (line 28). -/
structure CommentPayload where
  post_id : Int
  username : String
  content : String

/-- One rendered `.post` element as read by the handler: its `data-post-id`
attribute, the `textContent` of its `.comment-count` child when that child
exists, and the entries of its `.comments-list` child when that child
exists. -/
structure PostEl where
  postId : Int
  countText : Option String
  commentsList : Option (List String)
deriving DecidableEq

/-- Line 32: `parseInt(countEl.textContent || "0") + 1` rendered back to the
count element.  An empty `textContent` falls back to `"0"`; a `textContent`
that `parseInt` cannot parse yields NaN, rendered as `"NaN"`. -/
def bumpCount (t : String) : String :=
  match jsParseInt (if t = "" then "0" else t) with
  | some n => toString (n + 1)
  | none => "NaN"

/-- The `innerHTML` written for one comment entry at line 37. -/
def renderCommentEntry (username content : String) : String :=
  "<strong>" ++ username ++ "</strong>: " ++ content

/-- Lines 31–39 applied to the post element the selector found: bump the
comment count when a `.comment-count` child exists, and append the rendered
entry when a `.comments-list` child exists. -/
def applyNewComment (d : CommentPayload) (p : PostEl) : PostEl :=
  { p with countText := p.countText.map bumpCount,
           commentsList :=
             p.commentsList.map
               (fun l => l ++ [renderCommentEntry d.username d.content]) }

/-- Updating the first element satisfying the selector, leaving every other
element untouched (`document.querySelector` returns the first match in
document order). -/
def updateFirstPost (sel : PostEl → Bool) (f : PostEl → PostEl) :
    List PostEl → List PostEl
  | [] => []
  | p :: ps => if sel p then f p :: ps else p :: updateFirstPost sel f ps

/-- The `new_comment` handler of lines 28–41 over the document's list of
`.post` elements: find the first post whose `data-post-id` matches the
payload (line 29) and apply lines 31–39 to it; when no post matches, the
guard of line 30 makes the handler do nothing.  The handler is a total
function: it raises no error in either case. -/
def onNewComment (doc : List PostEl) (d : CommentPayload) : List PostEl :=
  updateFirstPost (fun p => p.postId == d.post_id) (applyNewComment d) doc

/-- `document.querySelector('.post[data-post-id=...]')` on the same document:
the first matching post, when one exists. -/
def findPost (doc : List PostEl) (pid : Int) : Option PostEl :=
  doc.find? (fun p => p.postId == pid)

theorem updateFirstPost_no_match (sel : PostEl → Bool) (f : PostEl → PostEl)
    (doc : List PostEl) (h : ∀ p ∈ doc, ¬sel p = true) :
    updateFirstPost sel f doc = doc := by
  induction doc with
  | nil => rfl
  | cons p ps ih =>
      rw [updateFirstPost, if_neg (h p (List.mem_cons_self p ps)),
        ih fun q hq => h q (List.mem_cons_of_mem p hq)]

theorem updateFirstPost_first_match (sel : PostEl → Bool) (f : PostEl → PostEl)
    (pre : List PostEl) (p : PostEl) (post : List PostEl)
    (hpre : ∀ q ∈ pre, ¬sel q = true) (hp : sel p = true) :
    updateFirstPost sel f (pre ++ p :: post) = pre ++ f p :: post := by
  induction pre with
  | nil => simp [updateFirstPost, hp]
  | cons q qs ih =>
      rw [List.cons_append, updateFirstPost,
        if_neg (hpre q (List.mem_cons_self q qs)),
        ih fun r hr => hpre r (List.mem_cons_of_mem q hr), List.cons_append]

/-- C3.  An inbound `new_comment` whose `post_id` matches a rendered post —
one carrying, per the DOM contract, a numeric comment-count text and a
comments list — increments that post's displayed count by 1 and appends the
rendered `username: content` entry to its comments list, leaving every other
post untouched; when no post matches, the handler changes nothing, and being
a total function it raises no error. -/
theorem newComment_updates_matching_post (doc : List PostEl) (d : CommentPayload) :
    (findPost doc d.post_id = none → onNewComment doc d = doc) ∧
      ∀ pre p post s n l,
        doc = pre ++ p :: post →
        (∀ q ∈ pre, q.postId ≠ d.post_id) →
        p.postId = d.post_id →
        p.countText = some s → s ≠ "" → jsParseInt s = some n →
        p.commentsList = some l →
        onNewComment doc d =
          pre ++
            { p with
                countText := some (toString (n + 1)),
                commentsList :=
                  some (l ++ [renderCommentEntry d.username d.content]) } ::
              post := by
  constructor
  · intro hnone
    apply updateFirstPost_no_match
    intro p hp hsel
    exact (List.find?_eq_none.mp hnone p hp) hsel
  · intro pre p post s n l hdoc hpre hpeq hcount hsne hparse hlist
    subst hdoc
    have hsel : (fun q => q.postId == d.post_id) p = true := by simp [hpeq]
    have hpre' : ∀ q ∈ pre, ¬(fun q => q.postId == d.post_id) q = true := by
      intro q hq hb
      exact hpre q hq (by simpa using hb)
    have happ : applyNewComment d p =
        { p with
            countText := some (toString (n + 1)),
            commentsList :=
              some (l ++ [renderCommentEntry d.username d.content]) } := by
      simp only [applyNewComment, hcount, hlist, Option.map_some]
      simp [bumpCount, hsne, hparse]
    rw [onNewComment, updateFirstPost_first_match _ _ pre p post hpre' hsel, happ]

theorem newComment_updates_matching_post_witness :
    (findPost [⟨1, some "0", some []⟩] (7 : Int) = none →
        onNewComment [⟨1, some "0", some []⟩] ⟨7, "u", "c"⟩ =
          [⟨1, some "0", some []⟩]) ∧
      (onNewComment
          [⟨1, some "0", some []⟩, ⟨7, some "2", some ["a"]⟩, ⟨7, some "9", some []⟩]
          ⟨7, "bob", "hey"⟩ =
        [⟨1, some "0", some []⟩,
          ⟨7, some (toString ((2 : Int) + 1)),
            some (["a"] ++ [renderCommentEntry "bob" "hey"])⟩,
          ⟨7, some "9", some []⟩]) :=
  ⟨fun h => (newComment_updates_matching_post [⟨1, some "0", some []⟩]
      ⟨7, "u", "c"⟩).1 h,
   (newComment_updates_matching_post
      [⟨1, some "0", some []⟩, ⟨7, some "2", some ["a"]⟩, ⟨7, some "9", some []⟩]
      ⟨7, "bob", "hey"⟩).2
     [⟨1, some "0", some []⟩] ⟨7, some "2", some ["a"]⟩ [⟨7, some "9", some []⟩]
     "2" 2 ["a"] rfl (by decide) rfl rfl (by decide) rfl rfl⟩

/-! ## DOM mutation watcher (style.js lines 4–22) -/

/-- A DOM node as inspected by the mutation callback: its class list and its
child nodes. -/
inductive DomNode where
  | node (classes : List String) (children : List DomNode)

/-- The node's `classList`. -/
def DomNode.classes : DomNode → List String
  | .node cs _ => cs

mutual
/-- All descendants of a node (the node itself excluded) in document
(preorder) order — the search space of `node.querySelector`. -/
def descendants : DomNode → List DomNode
  | .node _ ch => descendantsList ch

/-- Preorder traversal of a forest of sibling nodes. -/
def descendantsList : List DomNode → List DomNode
  | [] => []
  | c :: cs => c :: (descendants c ++ descendantsList cs)
end

/-- `node.querySelectorAll('.cls')`: the descendants carrying the class, in
document order. -/
def querySelectAll (cls : String) (n : DomNode) : List DomNode :=
  (descendants n).filter (fun m => m.classes.contains cls)

/-- `node.querySelector('.cls')`: the first such descendant, when any. -/
def querySelect (cls : String) (n : DomNode) : Option DomNode :=
  (querySelectAll cls n).head?

/-- Lines 8–11 for one added node of a mutation record: the comment forms
the callback hands to `bindCommentForm`.  Only the added node's own
`classList` is consulted (line 8): a node without class `post` binds
nothing, whatever its subtree holds; a post node binds the first
`.comment-form` of its subtree, when one exists (lines 10–11). -/
def processAddedNode (n : DomNode) : List DomNode :=
  if n.classes.contains "post" then
    match querySelect "comment-form" n with
    | some form => [form]
    | none => []
  else []

/-- The whole mutation callback of lines 5–19: every added node of every
record is processed independently. -/
def mutationCallback (records : List (List DomNode)) : List DomNode :=
  (records.map (fun added => (added.map processAddedNode).flatten)).flatten

/-- The claim's antecedent, stated from the spec's words: the inserted node's
subtree (the node itself included) contains a post element that contains a
comment form. -/
def introducesPostWithForm (n : DomNode) : Bool :=
  (n :: descendants n).any
    (fun m => m.classes.contains "post" &&
      !(querySelectAll "comment-form" m).isEmpty)

/-- C9 counterexample: inserting a plain wrapper node whose subtree holds a
post containing a comment form binds no form at all — the callback checks
only the added node's own class list (line 8), so the nested post's form is
missed. -/
theorem wrapped_post_form_not_bound :
    processAddedNode
        (.node [] [.node ["post"] [.node ["comment-form"] []]]) = [] ∧
      mutationCallback
          [[.node [] [.node ["post"] [.node ["comment-form"] []]]]] = [] ∧
      introducesPostWithForm
        (.node [] [.node ["post"] [.node ["comment-form"] []]]) = true :=
  ⟨rfl, rfl, rfl⟩

/-- C9 amended.  A comment form is bound for an inserted node exactly when
that node itself carries class `post` and its subtree holds a comment form;
every bound form is a `.comment-form` descendant of the inserted node; and an
inserted node without class `post` — even one whose subtree contains a post
with a comment form — binds nothing. -/
theorem commentForm_bound_iff_post_class (n : DomNode) :
    (processAddedNode n ≠ [] ↔
        (n.classes.contains "post" = true ∧
          querySelect "comment-form" n ≠ none)) ∧
      (∀ f ∈ processAddedNode n,
        f ∈ descendants n ∧ f.classes.contains "comment-form" = true) ∧
      (n.classes.contains "post" = false → processAddedNode n = []) := by
  by_cases hp : n.classes.contains "post" = true
  · have hp' : "post" ∈ n.classes := by simpa using hp
    cases hq : querySelect "comment-form" n with
    | none =>
        have hempty : processAddedNode n = [] := by
          simp [processAddedNode, hp', hq]
        refine ⟨?_, ?_, fun hf => hempty⟩
        · simp [hempty, hq]
        · intro f hf
          rw [hempty] at hf
          exact absurd hf (List.not_mem_nil f)
    | some form =>
        have hone : processAddedNode n = [form] := by
          simp [processAddedNode, hp', hq]
        have hq' : (querySelectAll "comment-form" n).head? = some form := hq
        have hmem : form ∈ querySelectAll "comment-form" n :=
          List.mem_of_mem_head? hq'
        have hsplit : form ∈ descendants n ∧ "comment-form" ∈ form.classes := by
          simpa [querySelectAll] using hmem
        refine ⟨?_, ?_, fun hf => absurd hp' (by simpa using hf)⟩
        · simp [hone, hp', hq]
        · intro f hf
          rw [hone, List.mem_singleton] at hf
          subst hf
          exact ⟨hsplit.1, by simpa using hsplit.2⟩
  · have hp' : "post" ∉ n.classes := by simpa using hp
    have hempty : processAddedNode n = [] := by
      simp [processAddedNode, hp']
    refine ⟨by simp [hempty, hp'], ?_, fun _ => hempty⟩
    intro f hf
    rw [hempty] at hf
    exact absurd hf (List.not_mem_nil f)

theorem commentForm_bound_iff_post_class_witness :
    ((.node ["comment-form"] [] : DomNode) ∈
        descendants (.node ["post"] [.node [] [.node ["comment-form"] []]]) ∧
      (DomNode.classes (.node ["comment-form"] [])).contains "comment-form" =
        true) ∧
      processAddedNode (.node ["other"] [.node ["post"] []]) = [] :=
  ⟨(commentForm_bound_iff_post_class
      (.node ["post"] [.node [] [.node ["comment-form"] []]])).2.1
      (.node ["comment-form"] []) (List.mem_cons_self _ _),
   (commentForm_bound_iff_post_class (.node ["other"] [.node ["post"] []])).2.2
      rfl⟩

end StyleJS
